import Mathlib

/-
Verification of the extraction/normalization core of the `pc_api` repository
(`scraper.py`: `AtCoderScraper._clean_section` and `AtCoderScraper.get_problem_detail`)
against its natural-language specification.

The HTML document tree processed by BeautifulSoup is shallowly embedded as the
inductive type `Node` below (element nodes with a tag name, an attribute list and
ordered children; text nodes).  All string operations are re-implemented over
`List Char` so that every definition evaluates inside the Lean kernel; Python's
`str.strip` / `str.rstrip` / `in` / `splitlines` / regular-expression fragments
used by the source are given faithful computable counterparts.  The HTTP fetch
and the HTML parser are external collaborators per the specification; the
embedded `get_problem_detail` therefore takes the parsed document tree as input.
Python `float` values for the time limit are modelled as exact rationals (the
claims under verification only involve values representable exactly).
-/

namespace PCApi

/-! ## String primitives (computable counterparts of the Python operations) -/

/-- Whitespace characters recognised by Python's `str.strip` (ASCII range). -/
def pyIsSpace (c : Char) : Bool :=
  c == ' ' || c == '\t' || c == '\n' || c == '\r' || c == '\x0b' || c == '\x0c'

/-- Python `str.strip()`: remove leading and trailing whitespace. -/
def pyStrip (s : String) : String :=
  String.mk (((s.data.dropWhile pyIsSpace).reverse.dropWhile pyIsSpace).reverse)

/-- Python `str.rstrip()`: remove trailing whitespace. -/
def pyRStrip (s : String) : String :=
  String.mk ((s.data.reverse.dropWhile pyIsSpace).reverse)

/-- Does the character list start with the given pattern? -/
def beginsWith : List Char → List Char → Bool
  | [], _ => true
  | _ :: _, [] => false
  | p :: ps, c :: cs => p == c && beginsWith ps cs

/-- Does the character list contain the pattern as a contiguous sublist? -/
def containsList (pat : List Char) : List Char → Bool
  | [] => pat.isEmpty
  | c :: cs => beginsWith pat (c :: cs) || containsList pat cs

/-- Python's substring test `pat in s` (case-sensitive containment). -/
def strContains (s pat : String) : Bool := containsList pat.data s.data

/-- Suffix of the list strictly after the first occurrence of the pattern. -/
def afterFirstList (pat : List Char) : List Char → Option (List Char)
  | [] => none
  | c :: cs =>
    if beginsWith pat (c :: cs) then some (List.drop pat.length (c :: cs))
    else afterFirstList pat cs

/-- Suffix of `s` after the first occurrence of `pat` (`none` if absent). -/
def afterFirst (s pat : String) : Option String :=
  (afterFirstList pat.data s.data).map String.mk

/-- Join a list of strings with a separator (Python `sep.join`). -/
def joinWith (sep : String) : List String → String
  | [] => ""
  | [x] => x
  | x :: xs => x ++ sep ++ joinWith sep xs

/-- Split a character list at every occurrence of a single character. -/
def splitCharGo (sep : Char) : List Char → List Char → List String
  | [], acc => [String.mk acc.reverse]
  | c :: cs, acc =>
    if c == sep then String.mk acc.reverse :: splitCharGo sep cs []
    else splitCharGo sep cs (c :: acc)

/-- Split a string at every occurrence of a single character. -/
def splitChar (sep : Char) (s : String) : List String := splitCharGo sep s.data []

/-- Does the string end with the given character? -/
def endsWithChar (c : Char) (s : String) : Bool :=
  match s.data.getLast? with
  | some d => d == c
  | none => false

/-- Python `str.splitlines()` for strings whose line breaks are `'\n'`
(the only line separator produced by the embedded pipeline). -/
def pySplitlines (s : String) : List String :=
  if s.data.isEmpty then []
  else if endsWithChar '\n' s then (splitChar '\n' s).dropLast
  else splitChar '\n' s

/-- Whitespace-separated words of a string (used for HTML `class` attribute values). -/
def wordsGo : List Char → List Char → List String
  | [], acc => if acc.isEmpty then [] else [String.mk acc.reverse]
  | c :: cs, acc =>
    if pyIsSpace c then
      if acc.isEmpty then wordsGo cs [] else String.mk acc.reverse :: wordsGo cs []
    else wordsGo cs (c :: acc)

/-- Whitespace-separated words of a string. -/
def wordsOf (s : String) : List String := wordsGo s.data []

/-- Numeric value of a digit string (Python `int` on a `\d+` match). -/
def natOfDigits (cs : List Char) : Nat := cs.foldl (fun n c => n * 10 + (c.toNat - 48)) 0

/-- First maximal run of decimal digits in a string
(the first match of the regular expression `\d+`). -/
def firstDigitRun (s : String) : Option String :=
  match s.data.dropWhile (fun c => !c.isDigit) with
  | [] => none
  | c :: cs => some (String.mk ((c :: cs).takeWhile Char.isDigit))

/-- First match of `\d+(?:\.\d+)?` in a string: the first digit run, extended by a
fractional part when a dot followed by a digit comes immediately after it. -/
def firstNumberToken (s : String) : Option String :=
  match s.data.dropWhile (fun c => !c.isDigit) with
  | [] => none
  | c :: cs =>
    let ds := (c :: cs).takeWhile Char.isDigit
    match (c :: cs).dropWhile Char.isDigit with
    | '.' :: r =>
      match r with
      | d :: _ =>
        if d.isDigit then some (String.mk (ds ++ '.' :: r.takeWhile Char.isDigit))
        else some (String.mk ds)
      | [] => some (String.mk ds)
    | _ => some (String.mk ds)

/-- Exact rational value of a decimal token of shape `\d+(\.\d+)?`
(models Python `float` on such a token; the claims only involve exact values). -/
def parseDecimalQ (tok : String) : ℚ :=
  match splitChar '.' tok with
  | [a, b] => mkRat (natOfDigits (a.data ++ b.data)) (10 ^ b.data.length)
  | [a] => mkRat (natOfDigits a.data) 1
  | _ => 0

/-! ## The document tree and BeautifulSoup operations -/

/-- A parsed HTML document node: a text node, or an element with a tag name, an
attribute list and ordered children (the tree BeautifulSoup hands to the core). -/
inductive Node where
  | text : String → Node
  | elem : String → List (String × String) → List Node → Node

/-- Tag name of a node (text nodes have none). -/
def tagName : Node → String
  | .text _ => ""
  | .elem t _ _ => t

/-- Value of an attribute of an element node. -/
def attrOf : Node → String → Option String
  | .text _, _ => none
  | .elem _ a _, k => (a.find? (fun kv => kv.1 == k)).map (fun kv => kv.2)

/-- The whitespace-separated class names of a node. -/
def classesOf (n : Node) : List String :=
  match attrOf n "class" with
  | some v => wordsOf v
  | none => []

/-- Does the node carry the given CSS class? -/
def hasClassName (n : Node) (c : String) : Bool := (classesOf n).contains c

mutual

/-- All text fragments of the subtree, in document (pre)order
(the `NavigableString`s that BeautifulSoup's `get_text`/`find(text=...)` visit). -/
def allTexts : Node → List String
  | .text s => [s]
  | .elem _ _ cs => allTextsList cs

/-- Text fragments of a forest of nodes, in document order. -/
def allTextsList : List Node → List String
  | [] => []
  | c :: cs => allTexts c ++ allTextsList cs

end

mutual

/-- Strict descendants of a node in document (pre)order —
the search space of BeautifulSoup's `select` on that node. -/
def descendants : Node → List Node
  | .text _ => []
  | .elem _ _ cs => descList cs

/-- Nodes of a forest together with their descendants, in document order. -/
def descList : List Node → List Node
  | [] => []
  | c :: cs => c :: (descendants c ++ descList cs)

end

/-- BeautifulSoup `tag.select(sel)`: all strict descendants matching a predicate,
in document order. -/
def selectAll (p : Node → Bool) (n : Node) : List Node := (descendants n).filter p

/-- BeautifulSoup `tag.select_one(sel)`: first strict descendant matching a predicate. -/
def selectOne (p : Node → Bool) (n : Node) : Option Node := (selectAll p n).head?

/-- BeautifulSoup `get_text(separator=sep)`: all text fragments of the subtree
joined by the separator. -/
def getTextSep (sep : String) (n : Node) : String := joinWith sep (allTexts n)

/-- BeautifulSoup `get_text(strip=True, separator=sep)`: text fragments stripped,
empty fragments dropped, the rest joined by the separator. -/
def getTextStripSep (sep : String) (n : Node) : String :=
  joinWith sep (((allTexts n).map pyStrip).filter (fun s => s != ""))

/-- BeautifulSoup `get_text(strip=True)` (empty separator). -/
def getTextStrip (n : Node) : String := getTextStripSep "" n

/-- First direct child of an element that is a text node
(BeautifulSoup `find(text=True, recursive=False)`). -/
def firstDirectString : Node → Option String
  | .text _ => none
  | .elem _ _ cs =>
    (cs.find? (fun c => match c with | .text _ => true | .elem _ _ _ => false)).map
      (fun c => match c with | .text s => s | .elem _ _ _ => "")

/-! ## The content normalizer `_clean_section` -/

/-- Selector `.div-btn-copy, .btn-copy, script, .btn-copy-all` used by the
`decompose` cleanup pass of `_clean_section`. -/
def decorMatch (n : Node) : Bool :=
  hasClassName n "div-btn-copy" || hasClassName n "btn-copy" ||
  tagName n == "script" || hasClassName n "btn-copy-all"

mutual

/-- Remove every decoration node (and its subtree) from a node, recursively. -/
def decompose_decor : Node → Node
  | .text s => .text s
  | .elem t a cs => .elem t a (decompose_decorList cs)

/-- Remove decoration nodes from a forest (`select(...)` + `decompose()`). -/
def decompose_decorList : List Node → List Node
  | [] => []
  | c :: cs =>
    if decorMatch c then decompose_decorList cs
    else decompose_decor c :: decompose_decorList cs

end

/-- Decomposition stage of `_clean_section` (the root itself is never matched:
`select` only searches strict descendants). -/
def decor_stage : Node → Node
  | .text s => .text s
  | .elem t a cs => .elem t a (decompose_decorList cs)

/-- Selector `var, span.katex, span.tex-span` of the math handling pass. -/
def mathMatch (n : Node) : Bool :=
  tagName n == "var" ||
  (tagName n == "span" && (hasClassName n "katex" || hasClassName n "tex-span"))

mutual

/-- Math pass on one node: a matched node with a non-empty formula has its contents
replaced by `$formula$` (`math.string = ...`), preferring the `data-tex` attribute
over the stripped text; a replaced node's old subtree is gone, so matches inside
it are not processed further (they are detached, as in the source's mutation). -/
def mathNode : Node → Node
  | .text s => .text s
  | .elem t a cs =>
    if mathMatch (.elem t a cs) then
      let dt := match attrOf (.elem t a cs) "data-tex" with
        | some v => v
        | none => ""
      let formula := if dt != "" then dt else getTextStrip (.elem t a cs)
      if formula != "" then .elem t a [.text ("$" ++ formula ++ "$")]
      else .elem t a (mathList cs)
    else .elem t a (mathList cs)

/-- Math pass on a forest of nodes. -/
def mathList : List Node → List Node
  | [] => []
  | c :: cs => mathNode c :: mathList cs

end

/-- Math stage of `_clean_section` (strict descendants only). -/
def math_stage : Node → Node
  | .text s => .text s
  | .elem t a cs => .elem t a (mathList cs)

mutual

/-- Code-block pass on one node: a `pre` with non-empty stripped text has its
contents replaced by a fenced block with leading and trailing newlines. -/
def preNode : Node → Node
  | .text s => .text s
  | .elem t a cs =>
    if t == "pre" then
      let preText := pyStrip (joinWith "" (allTextsList cs))
      if preText != "" then
        .elem t a [.text ("\n```\n" ++ preText ++ "\n```\n")]
      else .elem t a (preList cs)
    else .elem t a (preList cs)

/-- Code-block pass on a forest of nodes. -/
def preList : List Node → List Node
  | [] => []
  | c :: cs => preNode c :: preList cs

end

/-- Code-block stage of `_clean_section`. -/
def pre_stage : Node → Node
  | .text s => .text s
  | .elem t a cs => .elem t a (preList cs)

mutual

/-- Inline-code pass on one node: a `code` with non-empty stripped text has its
contents replaced by the text wrapped in single backticks. -/
def codeNode : Node → Node
  | .text s => .text s
  | .elem t a cs =>
    if t == "code" then
      let codeText := pyStrip (joinWith "" (allTextsList cs))
      if codeText != "" then .elem t a [.text ("`" ++ codeText ++ "`")]
      else .elem t a (codeList cs)
    else .elem t a (codeList cs)

/-- Inline-code pass on a forest of nodes. -/
def codeList : List Node → List Node
  | [] => []
  | c :: cs => codeNode c :: codeList cs

end

/-- Inline-code stage of `_clean_section`. -/
def code_stage : Node → Node
  | .text s => .text s
  | .elem t a cs => .elem t a (codeList cs)

mutual

/-- The `th` elements matched by `table.select('tr th')`: `th` descendants having a
`tr` ancestor inside the table, in document order. -/
def thUnder : Bool → Node → List Node
  | _, .text _ => []
  | underTr, .elem t a cs =>
    (if underTr && t == "th" then [Node.elem t a cs] else []) ++
      thUnderList (underTr || t == "tr") cs

/-- `th`-collection over a forest, tracking whether a `tr` ancestor was seen. -/
def thUnderList : Bool → List Node → List Node
  | _, [] => []
  | b, c :: cs => thUnder b c ++ thUnderList b cs

end

/-- Markdown rows built from a table node, exactly as the source builds `rows`:
a header row and separator from the `tr th` cells when any header exists, then one
row per `tr` from its non-empty list of `td` cells. -/
def tableRows (t : String) (a : List (String × String)) (cs : List Node) : List String :=
  let header := (thUnderList false cs).map getTextStrip
  let headRows :=
    if header.isEmpty then []
    else ["| " ++ joinWith " | " header ++ " |",
          "|" ++ joinWith "" (List.replicate header.length "---|")]
  let trs := (descendants (.elem t a cs)).filter (fun n => tagName n == "tr")
  let dataRows := trs.filterMap (fun tr =>
    let cells := ((descendants tr).filter (fun n => tagName n == "td")).map getTextStrip
    if cells.isEmpty then none
    else some ("| " ++ joinWith " | " cells ++ " |"))
  headRows ++ dataRows

mutual

/-- Table pass on one node: a `table` with non-empty markdown rows has its contents
replaced by the rows joined by newlines, with a leading and trailing newline. -/
def tableNode : Node → Node
  | .text s => .text s
  | .elem t a cs =>
    if t == "table" then
      let rows := tableRows t a cs
      if rows.isEmpty then .elem t a (tableList cs)
      else .elem t a [.text ("\n" ++ joinWith "\n" rows ++ "\n")]
    else .elem t a (tableList cs)

/-- Table pass on a forest of nodes. -/
def tableList : List Node → List Node
  | [] => []
  | c :: cs => tableNode c :: tableList cs

end

/-- Table stage of `_clean_section`. -/
def table_stage : Node → Node
  | .text s => .text s
  | .elem t a cs => .elem t a (tableList cs)

mutual

/-- Line-break pass on one node: every `br` element is replaced by a literal
newline text node (`br.replace_with('\n')`). -/
def brNode : Node → Node
  | .text s => .text s
  | .elem t a cs =>
    if t == "br" then .text "\n"
    else .elem t a (brList cs)

/-- Line-break pass on a forest of nodes. -/
def brList : List Node → List Node
  | [] => []
  | c :: cs => brNode c :: brList cs

end

/-- Line-break stage of `_clean_section`. -/
def br_stage : Node → Node
  | .text s => .text s
  | .elem t a cs => .elem t a (brList cs)

/-- The dead `text_parts` computation of `_clean_section` (source lines 54–67):
built from the decomposed copy and never used afterwards.  A `p`/`pre`/`ul`/`ol`
descendant with non-empty text contributes a fenced line (`pre`), a newline-padded
block of `- item` lines (`ul`/`ol`), or its plain text (`p`). -/
def text_parts (sect : Node) : List String :=
  (selectAll (fun n =>
      tagName n == "p" || tagName n == "pre" || tagName n == "ul" || tagName n == "ol")
    sect).foldl
    (fun acc el =>
      let elemText := getTextStripSep " " el
      if elemText != "" then
        if tagName el == "pre" then acc ++ ["\n" ++ elemText ++ "\n"]
        else if tagName el == "ul" || tagName el == "ol" then
          let items := (selectAll (fun m => tagName m == "li") el).map
            (fun li => "- " ++ getTextStrip li)
          acc ++ ["\n" ++ joinWith "\n" items ++ "\n"]
        else acc ++ [elemText]
      else acc)
    []

/-- Final text assembly of `_clean_section` (source lines 110–117): concatenate,
over the direct children of the section, the child's text — all subtree fragments
joined by `'\n'` for an element child, the literal content for a text child —
each followed by a newline, skipping children whose text strips to empty. -/
def assembleText : Node → String
  | .text _ => ""
  | .elem _ _ cs =>
    cs.foldl
      (fun acc child =>
        let childText := match child with
          | .text s => s
          | .elem t a ccs => getTextSep "\n" (.elem t a ccs)
        if pyStrip childText != "" then acc ++ childText ++ "\n" else acc)
      ""

/-- Re-flow loop of `_clean_section` (source lines 120–133): right-strip each line,
merge consecutive non-blank lines into one block joined by spaces, and emit one
blank line after each flushed block. -/
def reflowGo : List String → List String → List String → List String
  | [], lines, curr =>
    if curr.isEmpty then lines else lines ++ [joinWith " " curr]
  | l :: rest, lines, curr =>
    let l' := pyRStrip l
    if l' != "" then reflowGo rest lines (curr ++ [l'])
    else if !curr.isEmpty then reflowGo rest (lines ++ [joinWith " " curr, ""]) []
    else reflowGo rest lines curr

/-- Re-flow of the assembled text into blocks. -/
def reflowLines (ls : List String) : List String := reflowGo ls [] []

/-- Final blank-line filter of `_clean_section` (source lines 136–137): keep a line
when it is non-blank, or when it lies strictly between two non-blank lines. -/
def finalFilter (lines : List String) : String :=
  let n := lines.length
  joinWith "\n" ((List.range n).filterMap (fun i =>
    let line := lines.getD i ""
    if line ≠ "" ∨
        (0 < i ∧ i < n - 1 ∧ lines.getD (i - 1) "" ≠ "" ∧ lines.getD (i + 1) "" ≠ "")
    then some line else none))

/-- Python `copy.deepcopy` on the borrowed subtree (source line 47); under the
value semantics of the embedding a deep copy is the identity, and it is the copy,
never the caller's tree, that the later passes rewrite. -/
def deepcopy (n : Node) : Node := n

/-- The content normalizer `AtCoderScraper._clean_section`: working on a deep copy,
remove decoration nodes, compute the (unused) `text_parts`, rewrite math, code
blocks, inline code, tables and line breaks, then assemble the direct children's
text and re-flow it. -/
def clean_section (sect0 : Node) : String :=
  let sect := deepcopy sect0
  let sect := decor_stage sect
  let _tp := text_parts sect
  let sect := math_stage sect
  let sect := pre_stage sect
  let sect := code_stage sect
  let sect := table_stage sect
  let sect := br_stage sect
  let text := assembleText sect
  finalFilter (reflowLines (pySplitlines text))

/-- One call of `_clean_section` observed together with the caller's stored tree:
the call normalizes a deep copy, so the stored tree comes back unchanged. -/
def clean_section_run (stored : Node) : Node × String :=
  (stored, clean_section (deepcopy stored))

/-! ## Data model (`models.py`) -/

/-- `models.SampleTestCase`.  The scraper always passes a string for the optional
`explanation`, so it is modelled as the `some` case of an optional string. -/
structure SampleTestCase where
  input : String
  output : String
  explanation : Option String
deriving Repr, DecidableEq

/-- `models.ProblemDetailModel` (the fields the pydantic model declares; extra
constructor arguments of the scraper are ignored by pydantic and omitted here).
`time_limit` is an exact rational standing for the Python float. -/
structure ProblemDetailModel where
  title : String
  statement : String
  constraints : String
  input_format : String
  output_format : String
  notes : Option String
  samples : List SampleTestCase
  time_limit : ℚ
  memory_limit : Nat
  score : Nat
deriving Repr, DecidableEq

/-- The single exception type of the scraper (`ScraperException`). -/
inductive ScraperError where
  | scraperException : String → ScraperError
deriving Repr, DecidableEq

/-! ## Section classification and the sample-pairing state -/

/-- The fixed vocabulary of classified sections (the keys of `section_mappings`). -/
inductive SectionKey where
  | statement | constraints | input_format | output_format | notes
deriving Repr, DecidableEq

/-- `section_mappings` of `get_problem_detail`: the ordered keyword synonyms for
each section key, in the source's (insertion-ordered) dictionary order. -/
def section_mappings : List (SectionKey × List String) :=
  [(.statement, ["Problem Statement", "Problem", "問題文", "問題"]),
   (.constraints, ["Constraints", "制約", "制約条件"]),
   (.input_format, ["Input", "Input Format", "入力", "入力形式"]),
   (.output_format, ["Output", "Output Format", "出力", "出力形式"]),
   (.notes, ["Notes", "Note", "Hint", "注意", "ヒント", "補足"])]

/-- Condition `'Sample Input' in title or '入力例' in title`. -/
def is_sample_input (title : String) : Bool :=
  strContains title "Sample Input" || strContains title "入力例"

/-- Condition `'Sample Output' in title or '出力例' in title`. -/
def is_sample_output (title : String) : Bool :=
  strContains title "Sample Output" || strContains title "出力例"

/-- Condition `'Sample Explanation' in title or '出力例の説明' in title`. -/
def is_sample_expl (title : String) : Bool :=
  strContains title "Sample Explanation" || strContains title "出力例の説明"

/-- First section key whose keyword list has a member contained in the title
(the `for key, patterns in section_mappings.items()` loop with `break`). -/
def matchSection (title : String) : Option SectionKey :=
  (section_mappings.find? (fun kv => kv.2.any (fun pat => strContains title pat))).map
    (fun kv => kv.1)

/-- Where a block title is routed by the `if/elif` chain of the part loop. -/
inductive BlockRoute where
  | sample_input | sample_output | sample_expl
  | mapped : SectionKey → BlockRoute
  | unmapped
deriving Repr, DecidableEq

/-- The classification decision of the part loop, in the source's test order:
sample input, sample output, sample explanation, then the section mapping. -/
def classify (title : String) : BlockRoute :=
  if is_sample_input title then .sample_input
  else if is_sample_output title then .sample_output
  else if is_sample_expl title then .sample_expl
  else
    match matchSection title with
    | some k => .mapped k
    | none => .unmapped

/-- The `current_sample` dictionary: one partially accumulated sample case. -/
structure SampleRec where
  input : String
  output : String
  explanation : String
deriving Repr, DecidableEq

/-- The `sections` dictionary of `get_problem_detail` (the `title` entry is filled
before the part loop; `samples` accumulates flushed sample cases). -/
structure Sections where
  title : String
  statement : String
  input_format : String
  output_format : String
  constraints : String
  notes : String
  samples : List SampleRec
deriving Repr, DecidableEq

/-- `sections[key] = content` for a matched section key. -/
def setSection (s : Sections) (k : SectionKey) (v : String) : Sections :=
  match k with
  | .statement => { s with statement := v }
  | .constraints => { s with constraints := v }
  | .input_format => { s with input_format := v }
  | .output_format => { s with output_format := v }
  | .notes => { s with notes := v }

/-- The initial `sections` dictionary (every field empty, samples empty), with the
title extracted before the loop. -/
def initialSections (title : String) : Sections :=
  { title := title, statement := "", input_format := "", output_format := "",
    constraints := "", notes := "", samples := [] }

/-- One iteration of the part loop of `get_problem_detail` on the running state
`(sections, current_sample)`: skip the part when it has no `h3` or no `section`
child or its normalized content strips to empty; otherwise route it by its title —
a sample-input opener flushes any open sample and opens a new one, sample output
and explanation fill the open sample (and are dropped when none is open), a
mapped title overwrites its section field, and an unmapped title is discarded. -/
def processPart (st : Sections × Option SampleRec) (part : Node) :
    Sections × Option SampleRec :=
  match selectOne (fun n => tagName n == "h3") part with
  | none => st
  | some h3 =>
    let title := getTextStrip h3
    match selectOne (fun n => tagName n == "section") part with
    | none => st
    | some sectionTag =>
      let content := clean_section sectionTag
      if pyStrip content = "" then st
      else
        match classify title with
        | .sample_input =>
          let secs := match st.2 with
            | some c => { st.1 with samples := st.1.samples ++ [c] }
            | none => st.1
          (secs, some { input := content, output := "", explanation := "" })
        | .sample_output =>
          match st.2 with
          | some c => (st.1, some { c with output := content })
          | none => st
        | .sample_expl =>
          match st.2 with
          | some c => (st.1, some { c with explanation := content })
          | none => st
        | .mapped k => (setSection st.1 k content, st.2)
        | .unmapped => st

/-- Flush of the last open sample after the part loop
(`if current_sample: sections['samples'].append(current_sample)`). -/
def finishSamples (st : Sections × Option SampleRec) : List SampleRec :=
  match st.2 with
  | some c => st.1.samples ++ [c]
  | none => st.1.samples

/-- Post-processing of the accumulated samples: drop cases whose input and output
both strip to empty, and build trimmed `SampleTestCase` records from the rest. -/
def cleaned_samples (raw : List SampleRec) : List SampleTestCase :=
  (raw.filter (fun s => pyStrip s.input != "" || pyStrip s.output != "")).map
    (fun s =>
      { input := pyStrip s.input, output := pyStrip s.output,
        explanation := some (pyStrip s.explanation) })

/-! ## Metadata extraction and the navigator -/

/-- Does a node carry `id="task-statement"` (the selector `#task-statement`)? -/
def isTaskStatement (n : Node) : Bool := attrOf n "id" == some "task-statement"

/-- Selector `span.lang-<lang>` for a locale tag. -/
def isSpanLang (lang : String) (n : Node) : Bool :=
  tagName n == "span" && hasClassName n ("lang-" ++ lang)

/-- Selector `div.part` for content blocks. -/
def isDivPart (n : Node) : Bool := tagName n == "div" && hasClassName n "part"

/-- Language selection of `get_problem_detail`: the first `span.lang-en` descendant
of the container, else the first `span.lang-ja` descendant, else the container
itself (`for lang in ['en', 'ja']` with `break`, then the fallback). -/
def langContentOf (ts : Node) : Node :=
  match selectOne (isSpanLang "en") ts with
  | some lc => lc
  | none =>
    match selectOne (isSpanLang "ja") ts with
    | some lc => lc
    | none => ts

/-- Title extraction: the immediate text of the first `.h2` element of the page,
stripped (`find(text=True, recursive=False)` then `strip`), else empty. -/
def extractTitle (soup : Node) : String :=
  match selectOne (fun n => hasClassName n "h2") soup with
  | none => ""
  | some el =>
    match firstDirectString el with
    | some raw => if raw != "" then pyStrip raw else ""
    | none => ""

/-- Score extraction from the selected language content: the first text fragment
containing `Score` or `配点`, from which the first digit run is parsed; 100 when
the text or a digit run is absent. -/
def extractScore (langContent : Node) : Nat :=
  match (allTexts langContent).find?
      (fun t => strContains t "Score" || strContains t "配点") with
  | none => 100
  | some t =>
    match firstDigitRun t with
    | none => 100
    | some d => natOfDigits d.data

/-- The text-fragment predicate of the limits search
(`'Time Limit' in str(t) or 'Memory Limit' in str(t)`). -/
def limitsTextPred (t : String) : Bool :=
  strContains t "Time Limit" || strContains t "Memory Limit"

/-- Time limit from the matched limits text: the regular expression
`Time Limit[^\d]*(\d+(?:\.\d+)?)` — i.e. the first number token after the first
occurrence of `Time Limit` — parsed as a float; 2.0 when there is no match. -/
def timeFromText (t : String) : ℚ :=
  match (afterFirst t "Time Limit").bind firstNumberToken with
  | some tok => parseDecimalQ tok
  | none => 2

/-- Memory limit from the matched limits text: `Memory Limit[^\d]*(\d+)` — the
first digit run after the first occurrence of `Memory Limit`; 1024 otherwise. -/
def memFromText (t : String) : Nat :=
  match (afterFirst t "Memory Limit").bind firstDigitRun with
  | some tok => natOfDigits tok.data
  | none => 1024

/-- Time- and memory-limit extraction of `get_problem_detail`: the first text
fragment of the `#task-statement` container matching the limits predicate is
searched with both regular expressions; defaults 2.0 s and 1024 MB apply when the
text or a number is absent. -/
def extractLimits (taskStatement : Node) : ℚ × Nat :=
  match (allTexts taskStatement).find? limitsTextPred with
  | none => (2, 1024)
  | some t => (timeFromText t, memFromText t)

/-- `AtCoderScraper.get_problem_detail`, from the parsed document tree on (the
HTTP fetch and HTML parsing are external per the specification): fail when the
`#task-statement` container is absent; otherwise select the language content,
extract title, score and limits, classify the `div.part` blocks, pair the
samples, and build the immutable result. -/
def get_problem_detail (soup : Node) : Except ScraperError ProblemDetailModel :=
  match selectOne isTaskStatement soup with
  | none => .error (.scraperException "Could not find problem content")
  | some taskStatement =>
    let langContent := langContentOf taskStatement
    let title := extractTitle soup
    let score := extractScore langContent
    let limits := extractLimits taskStatement
    let parts := selectAll isDivPart langContent
    let st := parts.foldl processPart (initialSections title, none)
    let secs : Sections :=
      match st.2 with
      | some c => { st.1 with samples := st.1.samples ++ [c] }
      | none => st.1
    .ok
      { title := pyStrip secs.title
        statement := pyStrip secs.statement
        constraints := pyStrip secs.constraints
        input_format := pyStrip secs.input_format
        output_format := pyStrip secs.output_format
        notes := some (pyStrip secs.notes)
        samples := cleaned_samples secs.samples
        time_limit := limits.1
        memory_limit := limits.2
        score := score }

/-! ## Statement-side descriptions and concrete documents used by the theorems -/

/-- Description of a sample-input opener block: a part with an `h3` and a
`section` child whose normalized content does not strip to empty and whose title
is classified as a sample-input opener; its normalized content is returned. -/
def sampleInputOpenerContent? (part : Node) : Option String :=
  match selectOne (fun n => tagName n == "h3") part with
  | none => none
  | some h3 =>
    match selectOne (fun n => tagName n == "section") part with
    | none => none
    | some sectionTag =>
      let content := clean_section sectionTag
      if pyStrip content = "" then none
      else if classify (getTextStrip h3) = .sample_input then some content else none

/-- The normalized contents of the sample-input opener blocks of a part list,
in document order. -/
def sampleInputOpenerContents (parts : List Node) : List String :=
  parts.filterMap sampleInputOpenerContent?

/-- Invariant of the sample-pairing state: every flushed sample and any open
sample was opened by an input block, so its input does not strip to empty. -/
def goodState (st : Sections × Option SampleRec) : Prop :=
  (∀ c ∈ st.1.samples, pyStrip c.input ≠ "") ∧
  (∀ c, st.2 = some c → pyStrip c.input ≠ "")

/-- The five classified fields (trimmed) that `get_problem_detail` would produce
when the block classification runs over the blocks of a given content root. -/
def classifiedFieldsFrom (soup root : Node) :
    String × String × String × String × String :=
  let st := (selectAll isDivPart root).foldl processPart
    (initialSections (extractTitle soup), none)
  let secs : Sections :=
    match st.2 with
    | some c => { st.1 with samples := st.1.samples ++ [c] }
    | none => st.1
  (pyStrip secs.statement, pyStrip secs.constraints, pyStrip secs.input_format,
   pyStrip secs.output_format, pyStrip secs.notes)

/-- Does the title contain one of the keyword synonyms of the given section key? -/
def keywordHit (title : String) (k : SectionKey) : Bool :=
  match section_mappings.find? (fun kv => kv.1 == k) with
  | some kv => kv.2.any (fun pat => strContains title pat)
  | none => false

/-- Modelled from the spec: the time- and memory-limit extraction as the
specification words it — searching the WHOLE document (not just the content
container) for the first text node containing the limit keywords, with the same
regular expressions and defaults as the source.  Compared against the embedded
`extractLimits`, which searches only the `#task-statement` container. -/
def specWholeDocLimits (soup : Node) : ℚ × Nat :=
  match (allTexts soup).find? limitsTextPred with
  | none => (2, 1024)
  | some t => (timeFromText t, memFromText t)

/-- A content block (`div.part`) with a heading title and a one-text-node body. -/
def samplePart (t b : String) : Node :=
  .elem "div" [("class", "part")]
    [.elem "h3" [] [.text t], .elem "section" [] [.text b]]

/-- Concrete section body: a table with header cells `A`, `B` and one data row
`1`, `2` (the block of the table-normalization claim). -/
def tableSection : Node :=
  .elem "section" []
    [.elem "table" []
      [.elem "tr" [] [.elem "th" [] [.text "A"], .elem "th" [] [.text "B"]],
       .elem "tr" [] [.elem "td" [] [.text "1"], .elem "td" [] [.text "2"]]]]

/-- Concrete section body: an unordered list with items `a` and `b`
(the block of the list-normalization claim). -/
def listSection : Node :=
  .elem "section" []
    [.elem "ul" [] [.elem "li" [] [.text "a"], .elem "li" [] [.text "b"]]]

/-- Concrete document with no `#task-statement` container. -/
def noContainerDoc : Node :=
  .elem "html" [] [.elem "p" [] [.text "nothing here"]]

/-- Concrete `#task-statement` container of `containerDoc`. -/
def containerDocTask : Node :=
  .elem "div" [("id", "task-statement")]
    [.elem "span" [("class", "lang-en")] [samplePart "Problem Statement" "Find X."]]

/-- Concrete document with a `#task-statement` container. -/
def containerDoc : Node := .elem "html" [] [containerDocTask]

/-- Concrete document whose limits text sits OUTSIDE the `#task-statement`
container (inside the document, before it). -/
def limitsOutsideTask : Node :=
  .elem "div" [("id", "task-statement")]
    [.elem "span" [("class", "lang-en")] []]

/-- Concrete document for the limits-scope counterexample: the limits text is in
the whole document but not inside the container. -/
def limitsOutsideDoc : Node :=
  .elem "html" []
    [.elem "p" [] [.text "Time Limit: 7 sec / Memory Limit: 512 MB"],
     limitsOutsideTask]

/-- Concrete `#task-statement` container holding both locale variants. -/
def bothLangTask : Node :=
  .elem "div" [("id", "task-statement")]
    [.elem "span" [("class", "lang-en")]
      [samplePart "Problem Statement" "English statement."],
     .elem "span" [("class", "lang-ja")]
      [samplePart "問題文" "日本語の問題文。"]]

/-- The English variant node of `bothLangTask`. -/
def bothLangEn : Node :=
  .elem "span" [("class", "lang-en")] [samplePart "Problem Statement" "English statement."]

/-- Concrete document holding both locale variants. -/
def bothLangDoc : Node := .elem "html" [] [bothLangTask]

/-- Concrete `#task-statement` container for the sample-ordering witness: an
output block before any opener, then two openers with their outputs. -/
def orderingTask : Node :=
  .elem "div" [("id", "task-statement")]
    [.elem "span" [("class", "lang-en")]
      [samplePart "Sample Output 1" "9",
       samplePart "Sample Input 1" "1 2",
       samplePart "Sample Output 1" "3",
       samplePart "Sample Input 2" "4"]]

/-- Concrete document for the sample-ordering witness. -/
def orderingDoc : Node := .elem "html" [] [orderingTask]

/-! ## General lemmas about the embedded operations -/

theorem setSection_samples (s : Sections) (k : SectionKey) (v : String) :
    (setSection s k v).samples = s.samples := by
  cases k <;> rfl

theorem processPart_finish_inputs (st : Sections × Option SampleRec) (p : Node) :
    (finishSamples (processPart st p)).map SampleRec.input =
      (finishSamples st).map SampleRec.input ++ (sampleInputOpenerContent? p).toList := by
  obtain ⟨secs, cur⟩ := st
  simp only [processPart, sampleInputOpenerContent?]
  cases h1 : selectOne (fun n => tagName n == "h3") p with
  | none => simp
  | some h3 =>
    cases h2 : selectOne (fun n => tagName n == "section") p with
    | none => simp
    | some sectionTag =>
      by_cases hemp : pyStrip (clean_section sectionTag) = ""
      · simp [hemp]
      · simp only [if_neg hemp]
        cases hc : classify (getTextStrip h3) with
        | sample_input => cases cur <;> simp [finishSamples]
        | sample_output => cases cur <;> simp [finishSamples, hc]
        | sample_expl => cases cur <;> simp [finishSamples, hc]
        | mapped k => simp [finishSamples, setSection_samples, hc]
        | unmapped => simp [finishSamples, hc]

theorem foldl_finish_inputs (parts : List Node) : ∀ st : Sections × Option SampleRec,
    (finishSamples (parts.foldl processPart st)).map SampleRec.input =
      (finishSamples st).map SampleRec.input ++ sampleInputOpenerContents parts := by
  induction parts with
  | nil => intro st; simp [sampleInputOpenerContents]
  | cons p ps ih =>
    intro st
    simp only [List.foldl_cons, sampleInputOpenerContents, List.filterMap_cons]
    rw [ih (processPart st p), processPart_finish_inputs]
    cases sampleInputOpenerContent? p <;> simp [sampleInputOpenerContents]

theorem processPart_goodState (st : Sections × Option SampleRec) (p : Node)
    (h : goodState st) : goodState (processPart st p) := by
  obtain ⟨secs, cur⟩ := st
  obtain ⟨hs, hc⟩ := h
  simp only [processPart]
  cases h1 : selectOne (fun n => tagName n == "h3") p with
  | none => exact ⟨hs, hc⟩
  | some h3 =>
    cases h2 : selectOne (fun n => tagName n == "section") p with
    | none => exact ⟨hs, hc⟩
    | some sectionTag =>
      by_cases hemp : pyStrip (clean_section sectionTag) = ""
      · simp only [if_pos hemp]
        exact ⟨hs, hc⟩
      · simp only [if_neg hemp]
        cases hcl : classify (getTextStrip h3) with
        | sample_input =>
          cases cur with
          | none =>
            refine ⟨hs, ?_⟩
            intro c hcc
            simp only [Option.some_inj] at hcc
            rw [← hcc]
            exact hemp
          | some c0 =>
            refine ⟨?_, ?_⟩
            · intro c hcc
              simp only [List.mem_append, List.mem_singleton] at hcc
              rcases hcc with hcc | hcc
              · exact hs c hcc
              · rw [hcc]; exact hc c0 rfl
            · intro c hcc
              simp only [Option.some_inj] at hcc
              rw [← hcc]
              exact hemp
        | sample_output =>
          cases cur with
          | none => exact ⟨hs, hc⟩
          | some c0 =>
            refine ⟨hs, ?_⟩
            intro c hcc
            simp only [Option.some_inj] at hcc
            rw [← hcc]
            exact hc c0 rfl
        | sample_expl =>
          cases cur with
          | none => exact ⟨hs, hc⟩
          | some c0 =>
            refine ⟨hs, ?_⟩
            intro c hcc
            simp only [Option.some_inj] at hcc
            rw [← hcc]
            exact hc c0 rfl
        | mapped k =>
          refine ⟨?_, hc⟩
          intro c hcc
          rw [setSection_samples] at hcc
          exact hs c hcc
        | unmapped => exact ⟨hs, hc⟩

theorem foldl_goodState (parts : List Node) : ∀ st : Sections × Option SampleRec,
    goodState st → goodState (parts.foldl processPart st) := by
  induction parts with
  | nil => intro st h; exact h
  | cons p ps ih =>
    intro st h
    exact ih (processPart st p) (processPart_goodState st p h)

theorem finishSamples_good (st : Sections × Option SampleRec) (h : goodState st) :
    ∀ c ∈ finishSamples st, pyStrip c.input ≠ "" := by
  obtain ⟨secs, cur⟩ := st
  obtain ⟨hs, hc⟩ := h
  intro c hcc
  cases cur with
  | none => exact hs c hcc
  | some c0 =>
    simp only [finishSamples, List.mem_append, List.mem_singleton] at hcc
    rcases hcc with hcc | hcc
    · exact hs c hcc
    · rw [hcc]; exact hc c0 rfl

theorem cleaned_samples_of_good (raw : List SampleRec)
    (h : ∀ c ∈ raw, pyStrip c.input ≠ "") :
    cleaned_samples raw = raw.map (fun s =>
      { input := pyStrip s.input, output := pyStrip s.output,
        explanation := some (pyStrip s.explanation) }) := by
  unfold cleaned_samples
  rw [List.filter_eq_self.mpr]
  intro a ha
  simp only [Bool.or_eq_true, bne_iff_ne, ne_eq]
  exact Or.inl (h a ha)

theorem get_problem_detail_samples (soup ts : Node)
    (h : selectOne isTaskStatement soup = some ts) :
    (get_problem_detail soup).toOption.map ProblemDetailModel.samples =
      some (cleaned_samples (finishSamples
        ((selectAll isDivPart (langContentOf ts)).foldl processPart
          (initialSections (extractTitle soup), none)))) := by
  unfold get_problem_detail
  simp only [h]
  cases hst : (selectAll isDivPart (langContentOf ts)).foldl processPart
      (initialSections (extractTitle soup), none) with
  | mk secs cur =>
    cases cur <;> simp [finishSamples, hst] <;> exact ⟨_, rfl, rfl⟩

/-! ## C1: missing content container -/

/-- C1: for every document in which the `#task-statement` container is absent,
`get_problem_detail` fails with the `ScraperException("Could not find problem
content")` error and produces no result; and whenever the container is present
the call returns a result, so the missing container is the only caller-visible
failure of the extraction core. -/
theorem c1_contentNotFound_only_failure : ∀ soup : Node,
    (selectOne isTaskStatement soup = none →
      get_problem_detail soup =
        .error (.scraperException "Could not find problem content")) ∧
    (∀ ts, selectOne isTaskStatement soup = some ts →
      ∃ r, get_problem_detail soup = .ok r) := by
  intro soup
  constructor
  · intro h
    unfold get_problem_detail
    rw [h]
  · intro ts h
    unfold get_problem_detail
    rw [h]
    exact ⟨_, rfl⟩

/-- Witness for C1 at concrete documents: a document without the container fails
with the error, and a document with the container succeeds. -/
theorem c1_witness :
    get_problem_detail noContainerDoc =
      .error (.scraperException "Could not find problem content") ∧
    ∃ r, get_problem_detail containerDoc = .ok r :=
  ⟨(c1_contentNotFound_only_failure noContainerDoc).1 rfl,
   (c1_contentNotFound_only_failure containerDoc).2 containerDocTask rfl⟩

/-! ## C7: the normalizer is deterministic and pure -/

/-- C7: the normalizer is deterministic and pure — one call of `_clean_section`
leaves the caller's stored tree unchanged (all mutation happens on the deep
copy), and a second run on the very same tree yields the identical output
string; the output is a function of the input tree value alone. -/
theorem c7_clean_section_deterministic : ∀ sect : Node,
    (clean_section_run sect).1 = sect ∧
    (clean_section_run ((clean_section_run sect).1)).2 = (clean_section_run sect).2 :=
  fun _ => ⟨rfl, rfl⟩

/-! ## C4: table normalization (corrected) -/

/-- C4 counterexample: for the content block consisting of a table with header
cells `A`, `B` and one data row `1`, `2`, the normalizer's output is a single
line — the line `| A | B |` does not occur among the output's lines, so the
output does not contain the three separate lines the claim states. -/
theorem c4_counterexample_single_line :
    pySplitlines (clean_section tableSection) = ["| A | B | |---|---| | 1 | 2 |"] ∧
    ¬ ("| A | B |" ∈ pySplitlines (clean_section tableSection)) := by
  decide

/-- C4 amended: the table block normalizes to the single line
`| A | B | |---|---| | 1 | 2 |` — the header row, separator row and data row are
produced in that order but are merged into one space-joined line by the re-flow
step of the normalizer. -/
theorem c4_amended_table_markdown_reflowed :
    clean_section tableSection = "| A | B | |---|---| | 1 | 2 |" := by
  decide

/-! ## C5: list normalization (code bug: the `- item` rendering is dead code) -/

/-- C5: for the content block containing an unordered list with items `a` and
`b`, the live output of the normalizer is the re-flowed plain text `a b` with no
`- <item>` lines, while the source's own (never used) `text_parts` computation
produces exactly the claimed blank-line-padded `- a` / `- b` rendering: the
list-rendering code of `_clean_section` is dead. -/
theorem c5_list_rendering_dead_code :
    clean_section listSection = "a b" ∧
    strContains (clean_section listSection) "- a" = false ∧
    text_parts (decor_stage listSection) = ["\n- a\n- b\n"] := by
  decide

/-! ## C3: locale selection is first-match -/

/-- C3: when the primary (`en`) locale variant is present in the container, it is
selected as the content root — every classified field of the result is computed
from the blocks of that sub-tree, with no mixing — and when neither variant is
present the whole container is the content root (fallback `ja` is used only when
`en` is absent). -/
theorem c3_locale_first_match :
    (∀ soup ts lc, selectOne isTaskStatement soup = some ts →
      selectOne (isSpanLang "en") ts = some lc →
      langContentOf ts = lc ∧
      (get_problem_detail soup).toOption.map
          (fun r => (r.statement, r.constraints, r.input_format,
                     r.output_format, r.notes)) =
        some ((classifiedFieldsFrom soup lc).1,
              (classifiedFieldsFrom soup lc).2.1,
              (classifiedFieldsFrom soup lc).2.2.1,
              (classifiedFieldsFrom soup lc).2.2.2.1,
              some (classifiedFieldsFrom soup lc).2.2.2.2)) ∧
    (∀ ts lc, selectOne (isSpanLang "en") ts = none →
      selectOne (isSpanLang "ja") ts = some lc → langContentOf ts = lc) ∧
    (∀ ts, selectOne (isSpanLang "en") ts = none →
      selectOne (isSpanLang "ja") ts = none → langContentOf ts = ts) := by
  refine ⟨?_, ?_, ?_⟩
  · intro soup ts lc h1 h2
    have hlang : langContentOf ts = lc := by
      unfold langContentOf
      rw [h2]
    refine ⟨hlang, ?_⟩
    unfold get_problem_detail
    simp only [h1, hlang]
    rfl
  · intro ts lc h1 h2
    unfold langContentOf
    rw [h1, h2]
  · intro ts h1 h2
    unfold langContentOf
    rw [h1, h2]

/-- Witness for C3 at a concrete document holding both locale variants: the
English sub-tree is selected and the classified fields equal those computed from
it alone. -/
theorem c3_witness :
    langContentOf bothLangTask = bothLangEn ∧
    (get_problem_detail bothLangDoc).toOption.map
        (fun r => (r.statement, r.constraints, r.input_format,
                   r.output_format, r.notes)) =
      some ((classifiedFieldsFrom bothLangDoc bothLangEn).1,
            (classifiedFieldsFrom bothLangDoc bothLangEn).2.1,
            (classifiedFieldsFrom bothLangDoc bothLangEn).2.2.1,
            (classifiedFieldsFrom bothLangDoc bothLangEn).2.2.2.1,
            some (classifiedFieldsFrom bothLangDoc bothLangEn).2.2.2.2) :=
  c3_locale_first_match.1 bothLangDoc bothLangTask bothLangEn rfl rfl

/-! ## C2: sample ordering and the idle-discard transition -/

/-- C2: the order of sample cases in the result equals the document order of the
sample-input opener blocks — the result's sample inputs are exactly the trimmed
normalized contents of the opener blocks, in order — and a sample-output or
sample-explanation block arriving while no sample is open leaves the whole state
unchanged, so it cannot affect any later sample pair. -/
theorem c2_sample_order_and_idle_discard :
    (∀ soup ts, selectOne isTaskStatement soup = some ts →
      (get_problem_detail soup).toOption.map
          (fun r => r.samples.map (fun s => s.input)) =
        some ((sampleInputOpenerContents
          (selectAll isDivPart (langContentOf ts))).map pyStrip)) ∧
    (∀ (secs : Sections) (p h3 : Node),
      selectOne (fun n => tagName n == "h3") p = some h3 →
      is_sample_input (getTextStrip h3) = false →
      (is_sample_output (getTextStrip h3) || is_sample_expl (getTextStrip h3)) = true →
      processPart (secs, none) p = (secs, none)) := by
  constructor
  · intro soup ts h
    have hsm := get_problem_detail_samples soup ts h
    have hrw : (get_problem_detail soup).toOption.map
        (fun r => r.samples.map (fun s => s.input)) =
        ((get_problem_detail soup).toOption.map ProblemDetailModel.samples).map
          (fun l => l.map (fun s => s.input)) := by
      cases (get_problem_detail soup).toOption <;> rfl
    rw [hrw, hsm]
    have hgood : goodState ((selectAll isDivPart (langContentOf ts)).foldl processPart
        (initialSections (extractTitle soup), none)) := by
      refine foldl_goodState _ _ ⟨?_, ?_⟩
      · intro c hcc
        simp [initialSections] at hcc
      · intro c hcc
        simp at hcc
    have hfin := finishSamples_good _ hgood
    rw [cleaned_samples_of_good _ hfin]
    have hin := foldl_finish_inputs (selectAll isDivPart (langContentOf ts))
      (initialSections (extractTitle soup), none)
    simp only [Option.map_some']
    have hcomp : (finishSamples ((selectAll isDivPart (langContentOf ts)).foldl processPart
        (initialSections (extractTitle soup), none))).map
          (fun s => pyStrip s.input) =
        ((finishSamples ((selectAll isDivPart (langContentOf ts)).foldl processPart
          (initialSections (extractTitle soup), none))).map SampleRec.input).map pyStrip := by
      rw [List.map_map]
      rfl
    rw [List.map_map]
    rw [show ((fun s => s.input) ∘ fun s : SampleRec =>
        ({ input := pyStrip s.input, output := pyStrip s.output,
           explanation := some (pyStrip s.explanation) } : SampleTestCase)) =
        fun s : SampleRec => pyStrip s.input from rfl]
    rw [hcomp, hin]
    rw [show (finishSamples (initialSections (extractTitle soup), none)).map
        SampleRec.input = [] from rfl]
    rw [List.nil_append]
  · intro secs p h3 hh3 hin hoe
    simp only [processPart, hh3]
    cases h2 : selectOne (fun n => tagName n == "section") p with
    | none => rfl
    | some sectionTag =>
      by_cases hemp : pyStrip (clean_section sectionTag) = ""
      · simp only [if_pos hemp]
      · simp only [if_neg hemp]
        cases hout : is_sample_output (getTextStrip h3) with
        | true => simp [classify, hin, hout]
        | false =>
          have hexp : is_sample_expl (getTextStrip h3) = true := by
            rw [hout] at hoe
            simpa using hoe
          simp [classify, hin, hout, hexp]

/-- Witness for C2 at a concrete document: an output block precedes any opener
and is discarded; the two openers produce the two sample cases in document
order, and the idle-discard transition is exhibited on the first block. -/
theorem c2_witness :
    ((get_problem_detail orderingDoc).toOption.map
        (fun r => r.samples.map (fun s => s.input)) =
      some ((sampleInputOpenerContents
        (selectAll isDivPart (langContentOf orderingTask))).map pyStrip)) ∧
    processPart (initialSections "", none) (samplePart "Sample Output 1" "9") =
      (initialSections "", none) :=
  ⟨c2_sample_order_and_idle_discard.1 orderingDoc orderingTask rfl,
   c2_sample_order_and_idle_discard.2 (initialSections "")
     (samplePart "Sample Output 1" "9") (.elem "h3" [] [.text "Sample Output 1"])
     rfl (by decide) (by decide)⟩

/-! ## C10: every returned sample has a non-empty input -/

/-- C10: every sample case in the returned result has a non-empty input string
after trimming — a sample can only be opened by an input block whose normalized
content does not strip to empty — and the final filter that drops cases with
both input and output empty removes nothing: the result has exactly as many
cases as were flushed. -/
theorem c10_sample_inputs_nonempty : ∀ soup ts,
    selectOne isTaskStatement soup = some ts →
    ((get_problem_detail soup).toOption.map
        (fun r => r.samples.all (fun s => s.input != ""))) = some true ∧
    ((get_problem_detail soup).toOption.map (fun r => r.samples.length)) =
      some (finishSamples ((selectAll isDivPart (langContentOf ts)).foldl processPart
        (initialSections (extractTitle soup), none))).length := by
  intro soup ts h
  have hsm := get_problem_detail_samples soup ts h
  have hgood : goodState ((selectAll isDivPart (langContentOf ts)).foldl processPart
      (initialSections (extractTitle soup), none)) := by
    refine foldl_goodState _ _ ⟨?_, ?_⟩
    · intro c hcc
      simp [initialSections] at hcc
    · intro c hcc
      simp at hcc
  have hfin := finishSamples_good _ hgood
  constructor
  · have hrw : (get_problem_detail soup).toOption.map
        (fun r => r.samples.all (fun s => s.input != "")) =
        ((get_problem_detail soup).toOption.map ProblemDetailModel.samples).map
          (fun l => l.all (fun s => s.input != "")) := by
      cases (get_problem_detail soup).toOption <;> rfl
    rw [hrw, hsm, cleaned_samples_of_good _ hfin]
    simp only [Option.map_some', Option.some_inj]
    rw [List.all_eq_true]
    intro s hs
    rw [List.mem_map] at hs
    obtain ⟨c, hc, hcs⟩ := hs
    rw [← hcs]
    simp only [bne_iff_ne, ne_eq]
    exact hfin c hc
  · have hrw : (get_problem_detail soup).toOption.map
        (fun r => r.samples.length) =
        ((get_problem_detail soup).toOption.map ProblemDetailModel.samples).map
          List.length := by
      cases (get_problem_detail soup).toOption <;> rfl
    rw [hrw, hsm, cleaned_samples_of_good _ hfin]
    simp

/-- Witness for C10 at a concrete document: both returned samples have non-empty
inputs and no flushed case was dropped. -/
theorem c10_witness :
    ((get_problem_detail orderingDoc).toOption.map
        (fun r => r.samples.all (fun s => s.input != ""))) = some true ∧
    ((get_problem_detail orderingDoc).toOption.map (fun r => r.samples.length)) =
      some (finishSamples ((selectAll isDivPart (langContentOf orderingTask)).foldl
        processPart (initialSections (extractTitle orderingDoc), none))).length :=
  c10_sample_inputs_nonempty orderingDoc orderingTask rfl

/-! ## C8: a later sample-output block overwrites the stored output -/

theorem processPart_samplePart (st : Sections × Option SampleRec) (t b : String) :
    processPart st (samplePart t b) =
      (if pyStrip (clean_section (.elem "section" [] [.text b])) = "" then st
       else
        match classify (getTextStrip (.elem "h3" [] [.text t])) with
        | .sample_input =>
          (match st.2 with
            | some c => { st.1 with samples := st.1.samples ++ [c] }
            | none => st.1,
           some { input := clean_section (.elem "section" [] [.text b]),
                  output := "", explanation := "" })
        | .sample_output =>
          match st.2 with
          | some c =>
            (st.1, some { c with output := clean_section (.elem "section" [] [.text b]) })
          | none => st
        | .sample_expl =>
          match st.2 with
          | some c =>
            (st.1, some { c with explanation := clean_section (.elem "section" [] [.text b]) })
          | none => st
        | .mapped k => (setSection st.1 k (clean_section (.elem "section" [] [.text b])), st.2)
        | .unmapped => st) := rfl

/-- C8: while a sample case is open, a subsequent sample-output block overwrites
the previously stored output — for the block sequence Input, Output1, Output2
the open case ends with `output` equal to the normalized text of Output2, the
flushed case list gains exactly that case, and Output1's text occurs nowhere in
the outcome (the result is a function of the input and Output2 contents only). -/
theorem c8_output_overwritten (secs : Sections) (a b1 b2 : String)
    (ha : pyStrip (clean_section (.elem "section" [] [.text a])) ≠ "")
    (hb1 : pyStrip (clean_section (.elem "section" [] [.text b1])) ≠ "")
    (hb2 : pyStrip (clean_section (.elem "section" [] [.text b2])) ≠ "") :
    [samplePart "Sample Input 1" a, samplePart "Sample Output 1" b1,
      samplePart "Sample Output 1" b2].foldl processPart (secs, none) =
      (secs, some { input := clean_section (.elem "section" [] [.text a]),
                    output := clean_section (.elem "section" [] [.text b2]),
                    explanation := "" }) ∧
    finishSamples ([samplePart "Sample Input 1" a, samplePart "Sample Output 1" b1,
      samplePart "Sample Output 1" b2].foldl processPart (secs, none)) =
      secs.samples ++ [{ input := clean_section (.elem "section" [] [.text a]),
                         output := clean_section (.elem "section" [] [.text b2]),
                         explanation := "" }] := by
  have hSI : classify (getTextStrip (.elem "h3" [] [.text "Sample Input 1"])) =
      .sample_input := by decide
  have hSO : classify (getTextStrip (.elem "h3" [] [.text "Sample Output 1"])) =
      .sample_output := by decide
  have e1 : processPart (secs, none) (samplePart "Sample Input 1" a) =
      (secs, some { input := clean_section (.elem "section" [] [.text a]),
                    output := "", explanation := "" }) := by
    rw [processPart_samplePart, if_neg ha, hSI]
  have e2 : processPart (secs, some { input := clean_section (.elem "section" [] [.text a]),
                                      output := "", explanation := "" })
      (samplePart "Sample Output 1" b1) =
      (secs, some { input := clean_section (.elem "section" [] [.text a]),
                    output := clean_section (.elem "section" [] [.text b1]),
                    explanation := "" }) := by
    rw [processPart_samplePart, if_neg hb1, hSO]
  have e3 : processPart (secs, some { input := clean_section (.elem "section" [] [.text a]),
                                      output := clean_section (.elem "section" [] [.text b1]),
                                      explanation := "" })
      (samplePart "Sample Output 1" b2) =
      (secs, some { input := clean_section (.elem "section" [] [.text a]),
                    output := clean_section (.elem "section" [] [.text b2]),
                    explanation := "" }) := by
    rw [processPart_samplePart, if_neg hb2, hSO]
  have hfold : [samplePart "Sample Input 1" a, samplePart "Sample Output 1" b1,
      samplePart "Sample Output 1" b2].foldl processPart (secs, none) =
      (secs, some { input := clean_section (.elem "section" [] [.text a]),
                    output := clean_section (.elem "section" [] [.text b2]),
                    explanation := "" }) := by
    simp only [List.foldl_cons, List.foldl_nil]
    rw [e1, e2, e3]
  exact ⟨hfold, by rw [hfold]; rfl⟩

/-- Witness for C8 at concrete contents: input `1 2`, first output `wrong`,
second output `3`; the surviving output is the normalized `3`. -/
theorem c8_witness :
    [samplePart "Sample Input 1" "1 2", samplePart "Sample Output 1" "wrong",
      samplePart "Sample Output 1" "3"].foldl processPart (initialSections "", none) =
      (initialSections "",
       some { input := clean_section (.elem "section" [] [.text "1 2"]),
              output := clean_section (.elem "section" [] [.text "3"]),
              explanation := "" }) ∧
    finishSamples ([samplePart "Sample Input 1" "1 2", samplePart "Sample Output 1" "wrong",
      samplePart "Sample Output 1" "3"].foldl processPart (initialSections "", none)) =
      (initialSections "").samples ++
        [{ input := clean_section (.elem "section" [] [.text "1 2"]),
           output := clean_section (.elem "section" [] [.text "3"]),
           explanation := "" }] :=
  c8_output_overwritten (initialSections "") "1 2" "wrong" "3"
    (by decide) (by decide) (by decide)

/-! ## C9: title classification is ordered, case-sensitive containment -/

theorem keywordHit_statement (title : String) :
    keywordHit title .statement =
      (["Problem Statement", "Problem", "問題文", "問題"].any
        (fun pat => strContains title pat)) := rfl

theorem keywordHit_constraints (title : String) :
    keywordHit title .constraints =
      (["Constraints", "制約", "制約条件"].any (fun pat => strContains title pat)) := rfl

theorem keywordHit_input_format (title : String) :
    keywordHit title .input_format =
      (["Input", "Input Format", "入力", "入力形式"].any
        (fun pat => strContains title pat)) := rfl

theorem keywordHit_output_format (title : String) :
    keywordHit title .output_format =
      (["Output", "Output Format", "出力", "出力形式"].any
        (fun pat => strContains title pat)) := rfl

theorem keywordHit_notes (title : String) :
    keywordHit title .notes =
      (["Notes", "Note", "Hint", "注意", "ヒント", "補足"].any
        (fun pat => strContains title pat)) := rfl

theorem matchSection_unfold (title : String) :
    matchSection title =
      (if keywordHit title .statement then some .statement
       else if keywordHit title .constraints then some .constraints
       else if keywordHit title .input_format then some .input_format
       else if keywordHit title .output_format then some .output_format
       else if keywordHit title .notes then some .notes
       else none) := by
  rw [keywordHit_statement, keywordHit_constraints, keywordHit_input_format,
    keywordHit_output_format, keywordHit_notes]
  cases h1 : (["Problem Statement", "Problem", "問題文", "問題"].any
      (fun pat => strContains title pat)) with
  | true => simp [matchSection, section_mappings, List.find?, h1]
  | false =>
    cases h2 : (["Constraints", "制約", "制約条件"].any
        (fun pat => strContains title pat)) with
    | true => simp [matchSection, section_mappings, List.find?, h1, h2]
    | false =>
      cases h3 : (["Input", "Input Format", "入力", "入力形式"].any
          (fun pat => strContains title pat)) with
      | true => simp [matchSection, section_mappings, List.find?, h1, h2, h3]
      | false =>
        cases h4 : (["Output", "Output Format", "出力", "出力形式"].any
            (fun pat => strContains title pat)) with
        | true => simp [matchSection, section_mappings, List.find?, h1, h2, h3, h4]
        | false =>
          cases h5 : (["Notes", "Note", "Hint", "注意", "ヒント", "補足"].any
              (fun pat => strContains title pat)) with
          | true => simp [matchSection, section_mappings, List.find?, h1, h2, h3, h4, h5]
          | false => simp [matchSection, section_mappings, List.find?, h1, h2, h3, h4, h5]

/-- C9: block-title classification is case-sensitive substring containment with
the sample keywords tested before the section mapping and the section keys
tested in the fixed order statement, constraints, input format, output format,
notes, first match winning: a title containing `Sample Input` anywhere opens a
sample; a non-sample title containing `Problem` goes to the statement field; a
later key only receives the block when every earlier key's keywords miss; a
lowercase variant matches nothing. -/
theorem c9_keyword_routing (title : String) :
    (strContains title "Sample Input" = true → classify title = .sample_input) ∧
    (strContains title "入力例" = true → classify title = .sample_input) ∧
    (is_sample_input title = false → is_sample_output title = false →
      is_sample_expl title = false →
      ((strContains title "Problem" = true → classify title = .mapped .statement) ∧
       (keywordHit title .statement = false → keywordHit title .constraints = true →
         classify title = .mapped .constraints) ∧
       (keywordHit title .statement = false → keywordHit title .constraints = false →
         keywordHit title .input_format = true → classify title = .mapped .input_format) ∧
       (keywordHit title .statement = false → keywordHit title .constraints = false →
         keywordHit title .input_format = false → keywordHit title .output_format = true →
         classify title = .mapped .output_format) ∧
       (keywordHit title .statement = false → keywordHit title .constraints = false →
         keywordHit title .input_format = false → keywordHit title .output_format = false →
         keywordHit title .notes = true → classify title = .mapped .notes) ∧
       (keywordHit title .statement = false → keywordHit title .constraints = false →
         keywordHit title .input_format = false → keywordHit title .output_format = false →
         keywordHit title .notes = false → classify title = .unmapped))) ∧
    classify "sample input" = .unmapped ∧
    classify "Problem Constraints Input Output Notes" = .mapped .statement ∧
    classify "Notes on the Input" = .mapped .input_format := by
  refine ⟨?_, ?_, ?_, by decide, by decide, by decide⟩
  · intro h
    simp [classify, is_sample_input, h]
  · intro h
    simp [classify, is_sample_input, h]
  · intro h1 h2 h3
    refine ⟨?_, ?_, ?_, ?_, ?_, ?_⟩
    · intro hp
      have hstat : keywordHit title .statement = true := by
        rw [keywordHit_statement]
        simp [List.any_cons, List.any_nil, hp]
      simp [classify, h1, h2, h3, matchSection_unfold, hstat]
    · intro ha hb
      simp [classify, h1, h2, h3, matchSection_unfold, ha, hb]
    · intro ha hb hc
      simp [classify, h1, h2, h3, matchSection_unfold, ha, hb, hc]
    · intro ha hb hc hd
      simp [classify, h1, h2, h3, matchSection_unfold, ha, hb, hc, hd]
    · intro ha hb hc hd he
      simp [classify, h1, h2, h3, matchSection_unfold, ha, hb, hc, hd, he]
    · intro ha hb hc hd he
      simp [classify, h1, h2, h3, matchSection_unfold, ha, hb, hc, hd, he]

/-- Witness for C9 at concrete titles exercising each hypothesis: containment
opens a sample; `Problem` routes to statement; each later key receives the block
exactly when the earlier keys miss. -/
theorem c9_witness :
    classify "XSample InputY" = .sample_input ∧
    classify "Problem ABC" = .mapped .statement ∧
    classify "Constraints" = .mapped .constraints ∧
    classify "Input" = .mapped .input_format ∧
    classify "Output" = .mapped .output_format ∧
    classify "Hint" = .mapped .notes ∧
    classify "Unrelated Heading" = .unmapped :=
  ⟨(c9_keyword_routing "XSample InputY").1 (by decide),
   ((c9_keyword_routing "Problem ABC").2.2.1 (by decide) (by decide) (by decide)).1
     (by decide),
   ((c9_keyword_routing "Constraints").2.2.1 (by decide) (by decide) (by decide)).2.1
     (by decide) (by decide),
   ((c9_keyword_routing "Input").2.2.1 (by decide) (by decide) (by decide)).2.2.1
     (by decide) (by decide) (by decide),
   ((c9_keyword_routing "Output").2.2.1 (by decide) (by decide) (by decide)).2.2.2.1
     (by decide) (by decide) (by decide) (by decide),
   ((c9_keyword_routing "Hint").2.2.1 (by decide) (by decide) (by decide)).2.2.2.2.1
     (by decide) (by decide) (by decide) (by decide) (by decide),
   ((c9_keyword_routing "Unrelated Heading").2.2.1 (by decide) (by decide)
     (by decide)).2.2.2.2.2
     (by decide) (by decide) (by decide) (by decide) (by decide)⟩

/-! ## C6: time/memory limit extraction scope (corrected) -/

/-- C6 counterexample: for a document whose `Time Limit`/`Memory Limit` text sits
in the document but outside the `#task-statement` container, the claimed
whole-document search yields 7 s and 512 MB while the code returns the defaults
2.0 s and 1024 MB — the code searches only the container, not the whole
document. -/
theorem c6_counterexample_scope :
    specWholeDocLimits limitsOutsideDoc = (7, 512) ∧
    (get_problem_detail limitsOutsideDoc).toOption.map
        (fun r => (r.time_limit, r.memory_limit)) = some (2, 1024) := by
  decide

/-- C6 amended: `time_limit` and `memory_limit` are extracted by searching the
`#task-statement` container (not the whole document, and not just the language
sub-tree) for the first text fragment containing `Time Limit` or `Memory Limit`,
taking the first following decimal (time) or integer (memory) token by the
source's regular expressions; when that text is absent the result carries the
defaults 2.0 and 1024, and no parse failure is ever raised to the caller. -/
theorem c6_amended_limits_from_container : ∀ soup ts,
    selectOne isTaskStatement soup = some ts →
    ((get_problem_detail soup).toOption.map
        (fun r => (r.time_limit, r.memory_limit)) = some (extractLimits ts)) ∧
    ((allTexts ts).find? limitsTextPred = none → extractLimits ts = (2, 1024)) ∧
    (∀ t, (allTexts ts).find? limitsTextPred = some t →
      extractLimits ts = (timeFromText t, memFromText t)) := by
  intro soup ts h
  refine ⟨?_, ?_, ?_⟩
  · unfold get_problem_detail
    rw [h]
    rfl
  · intro hnone
    unfold extractLimits
    rw [hnone]
  · intro t ht
    unfold extractLimits
    rw [ht]

/-- Witness for C6 (amended) at a concrete document with no limits text: the
result carries the defaults. -/
theorem c6_amended_witness :
    ((get_problem_detail limitsOutsideDoc).toOption.map
        (fun r => (r.time_limit, r.memory_limit)) =
      some (extractLimits limitsOutsideTask)) ∧
    ((allTexts limitsOutsideTask).find? limitsTextPred = none →
      extractLimits limitsOutsideTask = (2, 1024)) ∧
    (∀ t, (allTexts limitsOutsideTask).find? limitsTextPred = some t →
      extractLimits limitsOutsideTask = (timeFromText t, memFromText t)) :=
  c6_amended_limits_from_container limitsOutsideDoc limitsOutsideTask rfl

end PCApi
